import Mathlib

/-!
Verification of the GraphRAG ingestion/retrieval pipeline
(`core/pdf_processor.py`, `services/neo4j_service.py`, `core/agents.py`,
`main.py`) against its natural-language specification.

Python strings are modelled as Lean `String`s (lists of characters);
calls to external services (the LLM agent, the embedding API, the graph
database engine) are modelled as explicit oracle arguments, with a
`Except`-shaped result wherever the Python code wraps the call in
`try/except`.
-/

namespace GraphRAG

/-! ## String helpers mirroring the Python builtins used by the code -/

/-- The ASCII whitespace characters removed by Python `str.strip()`. -/
def isPySpace (c : Char) : Bool :=
  c = ' ' || c = '\t' || c = '\n' || c = '\r' || c = '\x0b' || c = '\x0c'

/-- Python `str.strip()` on a character list: drop leading and trailing
whitespace. -/
def pyStripChars (l : List Char) : List Char :=
  ((l.dropWhile isPySpace).reverse.dropWhile isPySpace).reverse

/-- Python `str.strip()`. -/
def pyStrip (s : String) : String := ⟨pyStripChars s.data⟩

/-- Python `str.lower()` (ASCII case mapping), character by character. -/
def pyLower (s : String) : String := ⟨s.data.map Char.toLower⟩

/-! ## Data model of extraction results (`core/models.py` shapes) -/

/-- An extracted entity: `{name, type}`. -/
structure Entity where
  name : String
  type : String
deriving DecidableEq, Repr

/-- An extracted relationship: `{from_entity, to_entity, type}`. -/
structure Rel where
  from_entity : String
  to_entity : String
  type : String
deriving DecidableEq, Repr

/-- One per-chunk extraction record as built by
`extract_entities_per_chunk` (`chunk_index`/`chunk_text` omitted where a
claim does not need them are kept here for fidelity). -/
structure ChunkExtraction where
  chunk_index : Nat
  chunk_text : String
  entities : List Entity
  relationships : List Rel
deriving DecidableEq, Repr

/-- Result shape of `merge_entity_relationships`. -/
structure MergedData where
  entities : List Entity
  relationships : List Rel
deriving DecidableEq, Repr

/-! ## `merge_entity_relationships` (`core/pdf_processor.py` 203-263) -/

/-- Dedup key for entities: `entity.name.strip()` compared
case-insensitively (the code stores the stripped name as the dict key and
compares `.lower()` forms). -/
def entityKey (e : Entity) : String := pyLower (pyStrip e.name)

/-- Dedup key for relationships:
`(rel.from_entity.strip(), rel.to_entity.strip(), rel.type.lower().strip())`. -/
def relKey (r : Rel) : String × String × String :=
  (pyStrip r.from_entity, pyStrip r.to_entity, pyStrip (pyLower r.type))

/-- One step of the entity-merging loop: the accumulator is the ordered
`entities_map` as a list of `(normalized_name, entity)` pairs; an entity
is added only if no existing key matches case-insensitively. -/
def mergeEntitiesStep (acc : List (String × Entity)) (e : Entity) :
    List (String × Entity) :=
  let normalized_name := pyStrip e.name
  if pyLower normalized_name ∈ acc.map (fun p => pyLower p.1) then acc
  else acc ++ [(normalized_name, e)]

/-- One step of the relationship-merging loop: `relationships_set`
membership is exactly membership of the key among the kept list's keys. -/
def mergeRelsStep (acc : List Rel) (r : Rel) : List Rel :=
  if relKey r ∈ acc.map relKey then acc else acc ++ [r]

/-- `merge_entity_relationships`: fold both loops over every chunk's
extractions in order and return the merged unique lists. -/
def merge_entity_relationships (chunk_extractions : List ChunkExtraction) :
    MergedData :=
  let entities_map :=
    (chunk_extractions.flatMap (fun ex => ex.entities)).foldl mergeEntitiesStep []
  let relationships_list :=
    (chunk_extractions.flatMap (fun ex => ex.relationships)).foldl mergeRelsStep []
  { entities := entities_map.map Prod.snd
    relationships := relationships_list }

/-! ## Specification-side dedup (first occurrence wins, order preserved) -/

/-- Keep the first occurrence of each key, preserving order: the
reference form of "duplicates discarded, first occurrence kept, insertion
order preserved". -/
def dedupKeepFirstBy {α κ : Type} [DecidableEq κ] (k : α → κ) :
    List α → List α
  | [] => []
  | a :: as => a :: dedupKeepFirstBy k (as.filter (fun b => decide (k b ≠ k a)))
termination_by l => l.length
decreasing_by
  simp only [List.length_cons]
  exact Nat.lt_succ_of_le (List.length_filter_le _ _)

/-- Generic first-occurrence step, the common shape of both merge loops. -/
def keepFirstStep {α κ : Type} [DecidableEq κ] (k : α → κ)
    (acc : List α) (a : α) : List α :=
  if k a ∈ acc.map k then acc else acc ++ [a]

lemma mem_dedupKeepFirstBy {α κ : Type} [DecidableEq κ] (k : α → κ) :
    ∀ (l : List α) (x : α), x ∈ dedupKeepFirstBy k l → x ∈ l
  | [], x, hx => by simp [dedupKeepFirstBy] at hx
  | a :: as, x, hx => by
    rw [dedupKeepFirstBy] at hx
    rcases List.mem_cons.mp hx with h | h
    · exact h ▸ List.mem_cons_self _ _
    · exact List.mem_cons_of_mem _
        (List.mem_of_mem_filter (mem_dedupKeepFirstBy k _ x h))
termination_by l => l.length
decreasing_by
  simp only [List.length_cons]
  exact Nat.lt_succ_of_le (List.length_filter_le _ _)

lemma nodup_map_dedupKeepFirstBy {α κ : Type} [DecidableEq κ] (k : α → κ) :
    ∀ l : List α, ((dedupKeepFirstBy k l).map k).Nodup
  | [] => by simp [dedupKeepFirstBy]
  | a :: as => by
    rw [dedupKeepFirstBy, List.map_cons, List.nodup_cons]
    refine ⟨?_, nodup_map_dedupKeepFirstBy k _⟩
    intro hmem
    rcases List.mem_map.mp hmem with ⟨b, hb, hkb⟩
    have hb' := mem_dedupKeepFirstBy k _ b hb
    have := List.of_mem_filter hb'
    simp only [decide_eq_true_eq] at this
    exact this hkb
termination_by l => l.length
decreasing_by
  simp only [List.length_cons]
  exact Nat.lt_succ_of_le (List.length_filter_le _ _)

lemma foldl_keepFirstStep {α κ : Type} [DecidableEq κ] (k : α → κ) :
    ∀ (l acc : List α),
      l.foldl (keepFirstStep k) acc
        = acc ++ dedupKeepFirstBy k
            (l.filter (fun a => decide (k a ∉ acc.map k)))
  | [], acc => by simp [dedupKeepFirstBy]
  | a :: as, acc => by
    by_cases h : k a ∈ acc.map k
    · have hstep : keepFirstStep k acc a = acc := by
        simp [keepFirstStep, h]
      have hfa : (decide (k a ∉ acc.map k)) = false := by
        simp [h]
      rw [List.foldl_cons, hstep, foldl_keepFirstStep k as acc,
        List.filter_cons, hfa]
      simp
    · have hstep : keepFirstStep k acc a = acc ++ [a] := by
        simp [keepFirstStep, h]
      have hfa : (decide (k a ∉ acc.map k)) = true := by
        simp [h]
      rw [List.foldl_cons, hstep, foldl_keepFirstStep k as (acc ++ [a]),
        List.filter_cons, hfa]
      simp only [if_true]
      rw [dedupKeepFirstBy]
      have hfilter :
          as.filter (fun b => decide (k b ∉ (acc ++ [a]).map k))
            = (as.filter (fun b => decide (k b ∉ acc.map k))).filter
                (fun b => decide (k b ≠ k a)) := by
        rw [List.filter_filter]
        apply List.filter_congr
        intro b _
        by_cases h1 : k b = k a
        · simp [h1]
        · by_cases h2 : k b ∈ acc.map k <;> simp [h1, h2]
      rw [hfilter]
      simp

lemma dedupKeepFirstBy_map {α β κ : Type} [DecidableEq κ] (f : α → β) (k : β → κ) :
    ∀ l : List α,
      dedupKeepFirstBy k (l.map f)
        = (dedupKeepFirstBy (fun a => k (f a)) l).map f
  | [] => by simp [dedupKeepFirstBy]
  | a :: as => by
    rw [List.map_cons, dedupKeepFirstBy, dedupKeepFirstBy, List.map_cons]
    congr 1
    rw [List.filter_map, dedupKeepFirstBy_map f k]
    rfl
termination_by l => l.length
decreasing_by
  simp only [List.length_cons]
  exact Nat.lt_succ_of_le (List.length_filter_le _ _)

lemma foldl_keepFirstStep_nil {α κ : Type} [DecidableEq κ] (k : α → κ)
    (l : List α) :
    l.foldl (keepFirstStep k) [] = dedupKeepFirstBy k l := by
  rw [foldl_keepFirstStep]
  have hfl : l.filter (fun a => decide (k a ∉ ([] : List α).map k)) = l := by
    apply List.filter_eq_self.mpr
    intro a _
    simp
  rw [hfl, List.nil_append]

/-- C1: `merge_entity_relationships` keeps exactly the first occurrence of
each case-insensitive trimmed entity name (so the first occurrence's
casing and type survive) and the first occurrence of each relationship
key `(trimmed from, trimmed to, lower-cased trimmed type)`, in insertion
order, and the resulting keys are pairwise distinct. -/
theorem claim1_merge_entity_relationships_dedup (ces : List ChunkExtraction) :
    (merge_entity_relationships ces).entities
        = dedupKeepFirstBy entityKey (ces.flatMap (fun ex => ex.entities))
      ∧ (merge_entity_relationships ces).relationships
        = dedupKeepFirstBy relKey (ces.flatMap (fun ex => ex.relationships))
      ∧ (((merge_entity_relationships ces).entities).map entityKey).Nodup
      ∧ (((merge_entity_relationships ces).relationships).map relKey).Nodup := by
  have he : (merge_entity_relationships ces).entities
      = dedupKeepFirstBy entityKey (ces.flatMap (fun ex => ex.entities)) := by
    show ((ces.flatMap (fun ex => ex.entities)).foldl mergeEntitiesStep []).map
        Prod.snd = _
    have hstep : mergeEntitiesStep
        = fun acc e => keepFirstStep (fun p : String × Entity => pyLower p.1)
            acc (pyStrip e.name, e) := by
      funext acc e
      simp [mergeEntitiesStep, keepFirstStep]
    rw [hstep, ← List.foldl_map (fun e : Entity => (pyStrip e.name, e)),
      foldl_keepFirstStep_nil, dedupKeepFirstBy_map, List.map_map]
    have h2 : (Prod.snd ∘ fun e : Entity => (pyStrip e.name, e)) = id := rfl
    rw [h2, List.map_id]
    rfl
  have hr : (merge_entity_relationships ces).relationships
      = dedupKeepFirstBy relKey (ces.flatMap (fun ex => ex.relationships)) := by
    show (ces.flatMap (fun ex => ex.relationships)).foldl mergeRelsStep [] = _
    have h1 : mergeRelsStep = keepFirstStep relKey := by
      funext acc r
      simp [mergeRelsStep, keepFirstStep]
    rw [h1, foldl_keepFirstStep_nil]
  refine ⟨he, hr, ?_, ?_⟩
  · rw [he]; exact nodup_map_dedupKeepFirstBy _ _
  · rw [hr]; exact nodup_map_dedupKeepFirstBy _ _

/-! ## `_normalize_rel_type` and `create_relationship`
(`services/neo4j_service.py` 70-81, 138-155) -/

/-- The characters the regex `[^A-Z0-9]` does NOT match. -/
def isUpperAlnum (c : Char) : Bool :=
  ('A' ≤ c && c ≤ 'Z') || ('0' ≤ c && c ≤ '9')

/-- Single pass implementing `re.sub(r'[^A-Z0-9]+', '_', s)`: the Bool
argument records whether we are inside a run of non-matching characters
whose underscore has already been emitted. -/
def collapseAux : Bool → List Char → List Char
  | _, [] => []
  | inRun, c :: cs =>
    if isUpperAlnum c then c :: collapseAux false cs
    else if inRun then collapseAux true cs
    else '_' :: collapseAux true cs

/-- `re.sub(r'[^A-Z0-9]+', '_', s)`: each maximal run of characters
outside `[A-Z0-9]` becomes one underscore. -/
def collapseNonAlnum (l : List Char) : List Char := collapseAux false l

/-- Python `str.strip('_')`. -/
def stripUnderscores (l : List Char) : List Char :=
  ((l.dropWhile (fun c => c = '_')).reverse.dropWhile (fun c => c = '_')).reverse

/-- `_normalize_rel_type` on character lists: empty input defaults to
`RELATED`; otherwise strip, uppercase, collapse non-alphanumerics to
underscores, strip underscores, default to `RELATED` if nothing remains,
and guard a leading digit with `REL_`. -/
def normalizeRelTypeChars (l : List Char) : List Char :=
  if l.isEmpty then "RELATED".data
  else
    let s := stripUnderscores (collapseNonAlnum ((pyStripChars l).map Char.toUpper))
    match s with
    | [] => "RELATED".data
    | c :: cs => if c.isDigit then "REL_".data ++ (c :: cs) else c :: cs

/-- `_normalize_rel_type` on strings. -/
def normalize_rel_type (s : String) : String := ⟨normalizeRelTypeChars s.data⟩

/-- The edge written by `create_relationship`: the Cypher statement
`MERGE (e1)-[r:LABEL]->(e2) SET r.llm_type = $rel_type` uses the
normalized label and stores the original phrase as the `llm_type`
attribute. -/
structure RelEdge where
  from_name : String
  to_name : String
  label : String
  llm_type : String
deriving DecidableEq, Repr

/-- `create_relationship`: the record of the edge write it issues. -/
def create_relationship (from_entity to_entity rel_type : String) : RelEdge :=
  { from_name := from_entity
    to_name := to_entity
    label := normalize_rel_type rel_type
    llm_type := rel_type }

lemma mem_collapseAux :
    ∀ (b : Bool) (l : List Char) (c : Char), c ∈ collapseAux b l →
      isUpperAlnum c = true ∨ c = '_'
  | _, [], c, h => by simp [collapseAux] at h
  | b, d :: ds, c, h => by
    rw [collapseAux] at h
    by_cases hd : isUpperAlnum d
    · rw [if_pos hd] at h
      rcases List.mem_cons.mp h with h | h
      · exact Or.inl (h ▸ hd)
      · exact mem_collapseAux false ds c h
    · rw [if_neg hd] at h
      cases b with
      | true =>
        rw [if_pos rfl] at h
        exact mem_collapseAux true ds c h
      | false =>
        simp only [Bool.false_eq_true, if_false] at h
        rcases List.mem_cons.mp h with h | h
        · exact Or.inr h
        · exact mem_collapseAux true ds c h

lemma mem_stripUnderscores {c : Char} {l : List Char}
    (h : c ∈ stripUnderscores l) : c ∈ l := by
  unfold stripUnderscores at h
  rw [List.mem_reverse] at h
  have h2 := (List.dropWhile_sublist _).subset h
  rw [List.mem_reverse] at h2
  exact (List.dropWhile_sublist _).subset h2

/-- C2: every label produced by `_normalize_rel_type` consists only of
uppercase alphanumerics and underscores; the concrete phrase
"Prevents Through Proof of Work!!" normalizes to
`PREVENTS_THROUGH_PROOF_OF_WORK`; and `create_relationship` stores the
original free-form phrase as the `llm_type` edge attribute while using
the normalized form as the label. -/
theorem claim2_normalize_rel_type (s : String) :
    ((normalize_rel_type s).data.all (fun c => isUpperAlnum c || c = '_'))
      ∧ normalize_rel_type "Prevents Through Proof of Work!!"
          = "PREVENTS_THROUGH_PROOF_OF_WORK"
      ∧ (∀ f t ty, (create_relationship f t ty).llm_type = ty)
      ∧ (∀ f t ty, (create_relationship f t ty).label = normalize_rel_type ty) := by
  refine ⟨?_, by decide, fun f t ty => rfl, fun f t ty => rfl⟩
  rw [List.all_eq_true]
  intro c hc
  suffices h : isUpperAlnum c = true ∨ c = '_' by
    rcases h with h | h
    · simp [h]
    · simp [h]
  have hc' : c ∈ normalizeRelTypeChars s.data := hc
  clear hc
  revert hc'
  unfold normalizeRelTypeChars
  by_cases h0 : s.data.isEmpty
  · rw [if_pos h0]
    revert c
    decide
  · rw [if_neg h0]
    rcases hs : stripUnderscores
        (collapseNonAlnum ((pyStripChars s.data).map Char.toUpper)) with _ | ⟨d, ds⟩
    · intro hc
      revert hc
      revert c
      decide
    · have hmem : ∀ x ∈ d :: ds, isUpperAlnum x = true ∨ x = '_' := by
        intro x hx
        have := mem_stripUnderscores (hs ▸ hx)
        exact mem_collapseAux false _ x this
      show (c ∈ if d.isDigit = true then "REL_".data ++ d :: ds else d :: ds) →
          isUpperAlnum c = true ∨ c = '_'
      by_cases hd : d.isDigit
      · rw [if_pos hd]
        intro hc
        rcases List.mem_append.mp hc with h | h
        · have hrel : ∀ x ∈ "REL_".data, isUpperAlnum x = true ∨ x = '_' := by
            decide
          exact hrel c h
        · exact hmem c h
      · rw [if_neg hd]
        intro hc
        exact hmem c hc

/-! ## `embed_text` (`core/pdf_processor.py` 50-79) -/

/-- The OpenAI embedding client as used by `embed_text`: a batched call
over all inputs and a per-item call, each either returning embeddings or
raising. -/
structure EmbedClient where
  batch : List String → Except String (List (List Float))
  single : String → Except String (List Float)

/-- `embed_text`: empty input short-circuits to `[]`; otherwise one batch
request; on batch failure, per-item requests with `[0.0] * 1536`
substituted for an item that still fails. -/
def embed_text (client : EmbedClient) (texts : List String) :
    List (List Float) :=
  if texts.isEmpty then []
  else
    match client.batch texts with
    | Except.ok embeddings => embeddings
    | Except.error _ =>
        texts.map (fun text =>
          match client.single text with
          | Except.ok e => e
          | Except.error _ => List.replicate 1536 0.0)

/-- A client whose batch and per-item requests always fail, used to
instantiate the embedding length invariant under total failure. -/
def failingEmbedClient : EmbedClient :=
  { batch := fun _ => Except.error "boom"
    single := fun _ => Except.error "fail" }

/-- C3: under the embedding contract (a successful batch response has one
vector per input), `embed_text` returns exactly one vector per input;
when the batch request fails, the output is the positional map of the
per-item fallback, a failing position holding the `1536`-dimensional
zero-vector and a succeeding position holding its own embedding. -/
theorem claim3_embed_text_length (client : EmbedClient) (texts : List String)
    (hbatch : ∀ ts r, client.batch ts = Except.ok r → r.length = ts.length) :
    (embed_text client texts).length = texts.length
      ∧ (∀ msg, client.batch texts = Except.error msg →
          ∀ (i : Nat) (t e : String), texts[i]? = some t →
            client.single t = Except.error e →
            (embed_text client texts)[i]? = some (List.replicate 1536 0.0))
      ∧ (∀ msg, client.batch texts = Except.error msg →
          ∀ (i : Nat) (t : String) (v : List Float), texts[i]? = some t →
            client.single t = Except.ok v →
            (embed_text client texts)[i]? = some v) := by
  refine ⟨?_, ?_, ?_⟩
  · unfold embed_text
    by_cases h0 : texts.isEmpty
    · rw [if_pos h0]
      rw [List.isEmpty_iff] at h0
      simp [h0]
    · rw [if_neg h0]
      rcases hb : client.batch texts with msg | r
      · exact List.length_map texts _
      · exact hbatch texts r hb
  · intro msg hmsg i t e ht he
    unfold embed_text
    have h0 : texts.isEmpty = false := by
      rcases texts with _ | _
      · simp at ht
      · rfl
    rw [h0]
    simp only [Bool.false_eq_true, if_false, hmsg]
    rw [List.getElem?_map, ht, Option.map_some', he]
  · intro msg hmsg i t v ht hv
    unfold embed_text
    have h0 : texts.isEmpty = false := by
      rcases texts with _ | _
      · simp at ht
      · rfl
    rw [h0]
    simp only [Bool.false_eq_true, if_false, hmsg]
    rw [List.getElem?_map, ht, Option.map_some', hv]

/-- Witness for C3 at a concrete doubly-failing client: two inputs yield
two vectors, and the first position is the zero-vector. -/
theorem claim3_embed_text_length_witness :
    (embed_text failingEmbedClient ["a", "b"]).length = 2
      ∧ (embed_text failingEmbedClient ["a", "b"])[0]?
          = some (List.replicate 1536 0.0) := by
  have h := claim3_embed_text_length failingEmbedClient ["a", "b"]
    (by intro ts r hr; simp [failingEmbedClient] at hr)
  refine ⟨h.1, ?_⟩
  exact h.2.1 "boom" rfl 0 "a" "fail" rfl rfl

/-! ## The per-chunk quality filter in `extract_entities_from_chunk`
(`core/pdf_processor.py` 113-155) -/

/-- The stoplist of generic entity names. -/
def generic_terms : List String :=
  ["the", "this", "that", "these", "those", "it", "its",
   "system", "method", "approach", "technique", "process"]

/-- The stoplist of generic relationship verbs. -/
def generic_rel_types : List String :=
  ["related", "connected", "associated", "linked", "has", "uses", "involves"]

/-- The structured `{entities, relationships}` document the LLM returns. -/
structure ExtractedData where
  entities : List Entity
  relationships : List Rel
deriving DecidableEq, Repr

/-- Entity quality filter: drop names shorter than 3 characters and
names whose lower-cased form is a generic term. -/
def qualityEntities (es : List Entity) : List Entity :=
  es.filter (fun e =>
    decide (3 ≤ e.name.length) && decide (pyLower e.name ∉ generic_terms))

/-- Relationship quality filter: both endpoints must be names of kept
entities and the lower-cased type must not be a generic verb. -/
def qualityRelationships (quality_entities : List Entity) (rs : List Rel) :
    List Rel :=
  let entity_names := quality_entities.map (fun e => e.name)
  rs.filter (fun r =>
    decide (r.from_entity ∈ entity_names)
      && decide (r.to_entity ∈ entity_names)
      && decide (pyLower r.type ∉ generic_rel_types))

/-- `extract_entities_from_chunk`: the agent call either raises (the
`try` block catches everything and yields the empty result) or returns
data, which is then quality-filtered. -/
def extract_entities_from_chunk (result : Except String ExtractedData) :
    ExtractedData :=
  match result with
  | Except.error _ => ⟨[], []⟩
  | Except.ok extracted_data =>
      let quality_entities := qualityEntities extracted_data.entities
      ⟨quality_entities,
        qualityRelationships quality_entities extracted_data.relationships⟩

/-- C4: every entity kept by the per-chunk quality filter has a name of
at least 3 characters that is not a generic term case-insensitively, and
every kept relationship has both endpoints among the kept entities'
names and a non-generic lower-cased type. -/
theorem claim4_quality_filter (result : Except String ExtractedData) :
    (∀ e ∈ (extract_entities_from_chunk result).entities,
        3 ≤ e.name.length ∧ pyLower e.name ∉ generic_terms)
      ∧ (∀ r ∈ (extract_entities_from_chunk result).relationships,
          r.from_entity ∈ (extract_entities_from_chunk result).entities.map
              (fun e => e.name)
            ∧ r.to_entity ∈ (extract_entities_from_chunk result).entities.map
              (fun e => e.name)
            ∧ pyLower r.type ∉ generic_rel_types) := by
  rcases result with msg | data
  · constructor
    · intro e he
      simp [extract_entities_from_chunk] at he
    · intro r hr
      simp [extract_entities_from_chunk] at hr
  · constructor
    · intro e he
      have := List.of_mem_filter he
      simp only [Bool.and_eq_true, decide_eq_true_eq] at this
      exact this
    · intro r hr
      have := List.of_mem_filter hr
      simp only [Bool.and_eq_true, decide_eq_true_eq] at this
      exact ⟨this.1.1, this.1.2, this.2⟩

/-- Witness for C4 at a concrete extraction: "it" is filtered out, the
kept entity "Bitcoin" satisfies the length/stoplist bounds, and the kept
relationship's endpoints are kept entity names. -/
theorem claim4_quality_filter_witness :
    (3 ≤ ("Bitcoin" : String).length
        ∧ pyLower "Bitcoin" ∉ generic_terms)
      ∧ (("Satoshi Nakamoto" : String) ∈
            (extract_entities_from_chunk (Except.ok
              ⟨[⟨"Bitcoin", "TECHNOLOGY"⟩, ⟨"it", "CONCEPT"⟩,
                ⟨"Satoshi Nakamoto", "PERSON"⟩],
               [⟨"Satoshi Nakamoto", "Bitcoin", "invented"⟩]⟩)).entities.map
              (fun e => e.name)
          ∧ ("Bitcoin" : String) ∈
            (extract_entities_from_chunk (Except.ok
              ⟨[⟨"Bitcoin", "TECHNOLOGY"⟩, ⟨"it", "CONCEPT"⟩,
                ⟨"Satoshi Nakamoto", "PERSON"⟩],
               [⟨"Satoshi Nakamoto", "Bitcoin", "invented"⟩]⟩)).entities.map
              (fun e => e.name)
          ∧ pyLower "invented" ∉ generic_rel_types) := by
  constructor
  · exact (claim4_quality_filter (Except.ok
      ⟨[⟨"Bitcoin", "TECHNOLOGY"⟩, ⟨"it", "CONCEPT"⟩,
        ⟨"Satoshi Nakamoto", "PERSON"⟩],
       [⟨"Satoshi Nakamoto", "Bitcoin", "invented"⟩]⟩)).1
      ⟨"Bitcoin", "TECHNOLOGY"⟩ (by decide)
  · exact (claim4_quality_filter (Except.ok
      ⟨[⟨"Bitcoin", "TECHNOLOGY"⟩, ⟨"it", "CONCEPT"⟩,
        ⟨"Satoshi Nakamoto", "PERSON"⟩],
       [⟨"Satoshi Nakamoto", "Bitcoin", "invented"⟩]⟩)).2
      ⟨"Satoshi Nakamoto", "Bitcoin", "invented"⟩ (by decide)

/-! ## `chunk_text` (`core/pdf_processor.py` 32-48) -/

/-- The fallback slicer
`[text[i:i + fallback_size] for i in range(0, len(text), fallback_size)]`
with `fallback_size = 1000`, on character lists. -/
def fallbackSlices (l : List Char) : List (List Char) :=
  if h : l.isEmpty then []
  else l.take 1000 :: fallbackSlices (l.drop 1000)
termination_by l.length
decreasing_by
  simp only [List.length_drop]
  have hne : l ≠ [] := by
    intro h0
    rw [h0] at h
    exact h rfl
  exact Nat.sub_lt (List.length_pos.mpr hne) (by decide)

/-- `chunk_text`: the agentic chunker (an external LLM-driven call)
either returns chunk contents or raises; on any failure the fixed-width
fallback slicer is used. -/
def chunk_text (agentic : Except String (List String)) (text : String) :
    List String :=
  match agentic with
  | Except.ok chunks => chunks
  | Except.error _ => (fallbackSlices text.data).map (fun cs => (⟨cs⟩ : String))

lemma join_fallbackSlices (l : List Char) : (fallbackSlices l).flatten = l := by
  rw [fallbackSlices]
  by_cases h : l.isEmpty
  · rw [dif_pos h]
    rw [List.isEmpty_iff] at h
    rw [h]
    rfl
  · rw [dif_neg h, List.flatten_cons, join_fallbackSlices (l.drop 1000),
      List.take_append_drop]
termination_by l.length
decreasing_by
  simp only [List.length_drop]
  have hne : l ≠ [] := by
    intro h0
    rw [h0] at h
    exact h rfl
  exact Nat.sub_lt (List.length_pos.mpr hne) (by decide)

lemma fallbackSlices_ne_nil {l : List Char} (h : l ≠ []) :
    fallbackSlices l ≠ [] := by
  rw [fallbackSlices]
  rw [dif_neg (fun he => h (List.isEmpty_iff.mp he))]
  exact List.cons_ne_nil _ _

lemma fallbackSlices_length_le (l : List Char) :
    ∀ c ∈ fallbackSlices l, c.length ≤ 1000 := by
  rw [fallbackSlices]
  by_cases h : l.isEmpty
  · rw [dif_pos h]
    intro c hc
    simp at hc
  · rw [dif_neg h]
    intro c hc
    rcases List.mem_cons.mp hc with rfl | hc
    · rw [List.length_take]
      exact min_le_left _ _
    · exact fallbackSlices_length_le (l.drop 1000) c hc
termination_by l.length
decreasing_by
  simp only [List.length_drop]
  have hne : l ≠ [] := by
    intro h0
    rw [h0] at h
    exact h rfl
  exact Nat.sub_lt (List.length_pos.mpr hne) (by decide)

/-- C5 counterexample: on adaptive-chunker failure with the empty text,
`chunk_text` returns the empty list, not a non-empty chunk sequence. -/
theorem claim5_counterexample :
    chunk_text (Except.error "agentic chunking failed") "" = [] := by
  show (fallbackSlices "".data).map (fun cs => (⟨cs⟩ : String)) = []
  rw [fallbackSlices]
  rfl

/-- C5 amended: for every NON-EMPTY text, when the agentic chunker
fails, `chunk_text` falls back to fixed-width 1000-character slicing and
returns a non-empty ordered chunk sequence whose concatenation is the
original text, each chunk at most 1000 characters (on the empty text the
fallback returns the empty sequence). -/
theorem claim5_chunk_text_fallback (err : String) (text : String)
    (h : text ≠ "") :
    chunk_text (Except.error err) text ≠ []
      ∧ ((chunk_text (Except.error err) text).map String.data).flatten
          = text.data
      ∧ ∀ c ∈ chunk_text (Except.error err) text, c.length ≤ 1000 := by
  have hdata : text.data ≠ [] := by
    intro hd
    apply h
    cases text with
    | mk data =>
      simp only [String.data] at hd
      rw [hd]
  refine ⟨?_, ?_, ?_⟩
  · show (fallbackSlices text.data).map (fun cs => (⟨cs⟩ : String)) ≠ []
    intro hmap
    exact fallbackSlices_ne_nil hdata (List.map_eq_nil_iff.mp hmap)
  · show (((fallbackSlices text.data).map (fun cs => (⟨cs⟩ : String))).map
        String.data).flatten = text.data
    rw [List.map_map]
    have hid : (String.data ∘ fun cs : List Char => (⟨cs⟩ : String)) = id := rfl
    rw [hid, List.map_id, join_fallbackSlices]
  · intro c hc
    show c.data.length ≤ 1000
    rcases List.mem_map.mp hc with ⟨cs, hcs, rfl⟩
    exact fallbackSlices_length_le text.data cs hcs

/-- Witness for the amended C5 at the concrete text "ok". -/
theorem claim5_chunk_text_fallback_witness :
    chunk_text (Except.error "boom") "ok" ≠ []
      ∧ ((chunk_text (Except.error "boom") "ok").map String.data).flatten
          = ("ok" : String).data := by
  have h := claim5_chunk_text_fallback "boom" "ok" (by decide)
  exact ⟨h.1, h.2.1⟩

/-! ## `graphrag_search` (`services/neo4j_service.py` 206-236) -/

/-- One row returned by `vector_search`. -/
structure VectorHit where
  chunk_id : String
  text : String
  chunk_index : Nat
  doc_id : String
  filename : String
  score : Float
deriving Repr

/-- One chunk entry of the search bundle. -/
structure ChunkResult where
  text : String
  score : Float
  filename : String
deriving Repr

/-- One row of `get_entities_from_chunks`. -/
structure EntityRecord where
  name : String
  type : String
deriving DecidableEq, Repr

/-- One row of `get_entity_relationships`. -/
structure RelRecord where
  from_name : String
  type : String
  to_name : String
deriving DecidableEq, Repr

/-- The graph database as seen by `graphrag_search`: the three queries it
can issue, as black-box functions. -/
structure GraphDB where
  vector_search : List Float → Nat → List VectorHit
  get_entities_from_chunks : List String → List EntityRecord
  get_entity_relationships : List String → Nat → List RelRecord

/-- A label for each database query `graphrag_search` can perform, used
to record which queries a run actually issues. -/
inductive DbOp where
  | vectorSearch
  | getEntitiesFromChunks
  | getEntityRelationships
deriving DecidableEq, Repr

/-- The `{chunks, entities, relationships}` bundle. -/
structure SearchResult where
  chunks : List ChunkResult
  entities : List EntityRecord
  relationships : List RelRecord
deriving Repr

/-- `graphrag_search`, instrumented with the ordered list of database
queries issued: embed the query, vector-search; with no hits return the
empty bundle immediately; otherwise collect entities of the hit chunks
and, if any, expand their relationships with `max_hops = 2`. -/
def graphrag_search (client : EmbedClient) (db : GraphDB) (query : String)
    (top_k : Nat) : SearchResult × List DbOp :=
  let query_embedding := (embed_text client [query]).headD []
  let vector_results := db.vector_search query_embedding top_k
  if vector_results.isEmpty then
    (⟨[], [], []⟩, [DbOp.vectorSearch])
  else
    let chunks := vector_results.map
      (fun r => ({ text := r.text, score := r.score, filename := r.filename }
        : ChunkResult))
    let chunk_ids := vector_results.map (fun r => r.chunk_id)
    let entities := db.get_entities_from_chunks chunk_ids
    let entity_names := entities.map (fun e => e.name)
    if entity_names.isEmpty then
      (⟨chunks, entities, []⟩, [DbOp.vectorSearch, DbOp.getEntitiesFromChunks])
    else
      (⟨chunks, entities, db.get_entity_relationships entity_names 2⟩,
        [DbOp.vectorSearch, DbOp.getEntitiesFromChunks,
          DbOp.getEntityRelationships])

/-- A database whose vector search finds nothing but whose entity and
relationship queries would return visible junk if they were issued. -/
def emptyVectorDB : GraphDB :=
  { vector_search := fun _ _ => []
    get_entities_from_chunks := fun _ => [⟨"GHOST", "CONCEPT"⟩]
    get_entity_relationships := fun _ _ => [⟨"GHOST", "haunts", "GHOST"⟩] }

/-- C6: when the vector search returns zero hits, `graphrag_search`
returns the empty bundle and issues only the vector-search query: no
entity collection and no relationship expansion happen. -/
theorem claim6_graphrag_search_empty_seed (client : EmbedClient)
    (db : GraphDB) (query : String) (top_k : Nat)
    (h : db.vector_search ((embed_text client [query]).headD []) top_k = []) :
    (graphrag_search client db query top_k).1.chunks = []
      ∧ (graphrag_search client db query top_k).1.entities = []
      ∧ (graphrag_search client db query top_k).1.relationships = []
      ∧ (graphrag_search client db query top_k).2 = [DbOp.vectorSearch] := by
  have hres : graphrag_search client db query top_k
      = (⟨[], [], []⟩, [DbOp.vectorSearch]) := by
    unfold graphrag_search
    simp only [h, List.isEmpty_nil, if_true]
  rw [hres]
  exact ⟨rfl, rfl, rfl, rfl⟩

/-- Witness for C6 at a concrete empty-hit database. -/
theorem claim6_graphrag_search_empty_seed_witness :
    (graphrag_search failingEmbedClient emptyVectorDB "query" 5).1.entities = []
      ∧ (graphrag_search failingEmbedClient emptyVectorDB "query" 5).2
          = [DbOp.vectorSearch] := by
  have h := claim6_graphrag_search_empty_seed failingEmbedClient emptyVectorDB
    "query" 5 rfl
  exact ⟨h.2.1, h.2.2.2⟩

/-! ## `extract_entities_per_chunk` (`core/pdf_processor.py` 81-111 and
157-201) and the ingestion statistics of `load_pipeline` (`main.py`) -/

/-- Python `s[-n:]`: the last `n` characters (whole string if shorter). -/
def pyTakeLast (n : Nat) (l : List Char) : List Char := l.drop (l.length - n)

/-- The context sections built by `extract_entities_from_chunk`: an
optional trailing 500-character slice of the previous chunk, the current
chunk, and an optional leading 500-character slice of the next chunk
(`if previous_chunk:` is Python truthiness, so `None` and `""` both skip
the section). -/
def contextParts (chunk : String) (previous_chunk next_chunk : Option String) :
    List String :=
  (match previous_chunk with
   | some p =>
       if p = "" then []
       else ["[PREVIOUS CONTEXT]: " ++ (⟨pyTakeLast 500 p.data⟩ : String)]
   | none => [])
  ++ ["[CURRENT CHUNK TO ANALYZE]: " ++ chunk]
  ++ (match next_chunk with
      | some nx =>
          if nx = "" then []
          else ["[NEXT CONTEXT]: " ++ (⟨nx.data.take 500⟩ : String)]
      | none => [])

/-- `full_context = "\n\n".join(context_parts)`. -/
def fullContext (chunk : String) (previous_chunk next_chunk : Option String) :
    String :=
  String.intercalate "\n\n" (contextParts chunk previous_chunk next_chunk)

/-- `extract_entities_per_chunk`: the extraction agent is an external
service whose reply (or exception) may depend on the chunk position and
on the prompt; every chunk is processed in order and its (possibly
empty-on-failure) filtered result is recorded with the chunk
index and text. -/
def extract_entities_per_chunk
    (agent : Nat → String → Except String ExtractedData)
    (chunks : List String) : List ChunkExtraction :=
  (List.range chunks.length).map (fun i =>
    let previous_chunk := if 0 < i then some (chunks.getD (i - 1) "") else none
    let next_chunk :=
      if i < chunks.length - 1 then some (chunks.getD (i + 1) "") else none
    let data := extract_entities_from_chunk
      (agent i (fullContext (chunks.getD i "") previous_chunk next_chunk))
    { chunk_index := i
      chunk_text := chunks.getD i ""
      entities := data.entities
      relationships := data.relationships })

/-- The ingestion statistics assembled by `load_pipeline`
(`main.py` 107-117) in its success path, restricted to the pure
counts: `chunks_count` is the number of chunks, the other counts are the
lengths of the merged lists. -/
structure PipelineStats where
  chunks_count : Nat
  entities_count : Nat
  relationships_count : Nat
deriving DecidableEq, Repr

/-- The pure statistics core of `load_pipeline` steps 4-5. -/
def pipelineStats (chunks : List String)
    (agent : Nat → String → Except String ExtractedData) : PipelineStats :=
  let chunk_extractions := extract_entities_per_chunk agent chunks
  let merged := merge_entity_relationships chunk_extractions
  { chunks_count := chunks.length
    entities_count := merged.entities.length
    relationships_count := merged.relationships.length }

/-- The 3-chunk scenario of the spec: chunk 2 (index 1) throws. -/
def scenarioChunks : List String := ["c1", "c2", "c3"]

/-- Agent behaviour for the scenario: successful structured replies for
chunks 1 and 3, an exception for chunk 2. -/
def scenarioAgent : Nat → String → Except String ExtractedData :=
  fun i _ =>
    if i = 0 then Except.ok ⟨[⟨"Bitcoin", "TECHNOLOGY"⟩], []⟩
    else if i = 1 then Except.error "LLM request failed"
    else Except.ok ⟨[⟨"Blockchain", "TECHNOLOGY"⟩], []⟩

/-- C7: a failed extraction yields the empty result for that chunk only;
`extract_entities_per_chunk` still processes every chunk; and in the
concrete 3-chunk scenario where chunk 2 throws, the merged result holds
exactly the entities of chunks 1 and 3 and the stats report
`chunks_count = 3`. -/
theorem claim7_per_chunk_failure_isolation
    (agent : Nat → String → Except String ExtractedData)
    (chunks : List String) :
    (∀ msg : String,
        extract_entities_from_chunk (Except.error msg) = ⟨[], []⟩)
      ∧ (extract_entities_per_chunk agent chunks).length = chunks.length
      ∧ merge_entity_relationships
            (extract_entities_per_chunk scenarioAgent scenarioChunks)
          = ⟨[⟨"Bitcoin", "TECHNOLOGY"⟩, ⟨"Blockchain", "TECHNOLOGY"⟩], []⟩
      ∧ pipelineStats scenarioChunks scenarioAgent = ⟨3, 2, 0⟩ := by
  refine ⟨fun msg => rfl, ?_, by decide, by decide⟩
  unfold extract_entities_per_chunk
  rw [List.length_map, List.length_range]

/-! ## `get_entity_relationships` (`services/neo4j_service.py` 182-204)

The function's body is one Cypher query:
`MATCH (e:Entity) WHERE e.name IN $entity_names`
`MATCH path = (e)-[r*1..2]-(connected:Entity)`
`RETURN DISTINCT startNode(relationships(path)[0]).name, type(...), ...`
`LIMIT 50`. We shallow-embed its semantics over an explicit graph: rows
are generated per seed node, per undirected path of 1 or 2 distinct
edges, each row carrying the stored orientation of the path's FIRST
edge; then `DISTINCT` deduplicates and `LIMIT 50` truncates. -/

/-- A stored entity-to-entity edge: start node name, stored label, end
node name. -/
structure GraphEdge where
  src : String
  label : String
  dst : String
deriving DecidableEq, Repr

/-- The two undirected traversal orientations of an edge:
(entered-from, leads-to). -/
def incidentPairs (r : GraphEdge) : List (String × String) :=
  [(r.src, r.dst), (r.dst, r.src)]

/-- The nodes matched by `WHERE e.name IN $entity_names`. -/
def seedNodes (nodes : List String) (entity_names : List String) :
    List String :=
  nodes.filter (fun n => decide (n ∈ entity_names))

/-- The returned triple of a path: the stored orientation of its first
edge. -/
def firstEdgeRow (r1 : GraphEdge) : RelRecord :=
  { from_name := r1.src, type := r1.label, to_name := r1.dst }

/-- All result rows before `DISTINCT`/`LIMIT`: for each seed node `e`,
each path `e -r1- x` (length 1) and `e -r1- x -r2- y` with `r2 ≠ r1`
(length 2) contributes the first edge's row. -/
def pathRows (nodes : List String) (edges : List GraphEdge)
    (entity_names : List String) : List RelRecord :=
  (seedNodes nodes entity_names).flatMap (fun e =>
    edges.flatMap (fun r1 =>
      (incidentPairs r1).flatMap (fun p =>
        if p.1 = e then
          firstEdgeRow r1 ::
            edges.flatMap (fun r2 =>
              (incidentPairs r2).flatMap (fun q =>
                if q.1 = p.2 ∧ r2 ≠ r1 then [firstEdgeRow r1] else []))
        else [])))

/-- `get_entity_relationships`: `RETURN DISTINCT ... LIMIT 50` over the
path rows. -/
def get_entity_relationships (nodes : List String) (edges : List GraphEdge)
    (entity_names : List String) : List RelRecord :=
  (dedupKeepFirstBy id (pathRows nodes edges entity_names)).take 50

lemma pathRows_sound {nodes : List String} {edges : List GraphEdge}
    {entity_names : List String} {t : RelRecord}
    (ht : t ∈ pathRows nodes edges entity_names) :
    ∃ r ∈ edges,
      ((r.src ∈ nodes ∧ r.src ∈ entity_names)
        ∨ (r.dst ∈ nodes ∧ r.dst ∈ entity_names))
      ∧ t = firstEdgeRow r := by
  rcases List.mem_flatMap.mp ht with ⟨e, he, ht⟩
  rcases List.mem_flatMap.mp ht with ⟨r1, hr1, ht⟩
  rcases List.mem_flatMap.mp ht with ⟨p, hp, ht⟩
  have hseed := List.mem_filter.mp he
  have henodes : e ∈ nodes := hseed.1
  have henames : e ∈ entity_names := by
    have := hseed.2
    simpa using this
  by_cases hpe : p.1 = e
  · rw [if_pos hpe] at ht
    have hteq : t = firstEdgeRow r1 := by
      rcases List.mem_cons.mp ht with h | h
      · exact h
      · rcases List.mem_flatMap.mp h with ⟨r2, _, h⟩
        rcases List.mem_flatMap.mp h with ⟨q, _, h⟩
        by_cases hq : q.1 = p.2 ∧ r2 ≠ r1
        · rw [if_pos hq] at h
          simpa using h
        · rw [if_neg hq] at h
          simp at h
    refine ⟨r1, hr1, ?_, hteq⟩
    have hp2 : p = (r1.src, r1.dst) ∨ p = (r1.dst, r1.src) := by
      simpa [incidentPairs] using hp
    rcases hp2 with rfl | rfl
    · left
      simp only at hpe
      rw [hpe]
      exact ⟨henodes, henames⟩
    · right
      simp only at hpe
      rw [hpe]
      exact ⟨henodes, henames⟩
  · rw [if_neg hpe] at ht
    simp at ht

/-- C9: for a non-empty seed entity set, the relationship expansion
returns at most 50 pairwise-distinct triples, each being the stored
(from, type, to) of an edge lying on a 1-or-2-hop path out of the seed
set (namely its first edge, incident to a seed node). -/
theorem claim9_get_entity_relationships (nodes : List String)
    (edges : List GraphEdge) (entity_names : List String)
    (hne : entity_names ≠ []) :
    (get_entity_relationships nodes edges entity_names).length ≤ 50
      ∧ (get_entity_relationships nodes edges entity_names).Nodup
      ∧ ∀ t ∈ get_entity_relationships nodes edges entity_names,
          ∃ r ∈ edges,
            ((r.src ∈ nodes ∧ r.src ∈ entity_names)
              ∨ (r.dst ∈ nodes ∧ r.dst ∈ entity_names))
            ∧ t = firstEdgeRow r := by
  refine ⟨?_, ?_, ?_⟩
  · rw [get_entity_relationships, List.length_take]
    exact min_le_left _ _
  · rw [get_entity_relationships]
    apply List.Nodup.sublist (List.take_sublist _ _)
    have h := nodup_map_dedupKeepFirstBy id
      (pathRows nodes edges entity_names)
    rwa [List.map_id] at h
  · intro t ht
    have h1 : t ∈ dedupKeepFirstBy id (pathRows nodes edges entity_names) :=
      (List.take_sublist _ _).subset ht
    exact pathRows_sound (mem_dedupKeepFirstBy id _ t h1)

/-- Witness for C9 at a concrete 3-node, 2-edge graph seeded at "a". -/
theorem claim9_get_entity_relationships_witness :
    (get_entity_relationships ["a", "b", "c"]
        [⟨"a", "R1", "b"⟩, ⟨"b", "R2", "c"⟩] ["a"]).length ≤ 50
      ∧ (get_entity_relationships ["a", "b", "c"]
          [⟨"a", "R1", "b"⟩, ⟨"b", "R2", "c"⟩] ["a"]).Nodup := by
  have h := claim9_get_entity_relationships ["a", "b", "c"]
    [⟨"a", "R1", "b"⟩, ⟨"b", "R2", "c"⟩] ["a"] (by decide)
  exact ⟨h.1, h.2.1⟩

/-! ## `graphrag_agent` and `sql_graphrag_agent` (`core/agents.py`
75-115 and 145-183): answer generation error reporting -/

/-- `graphrag_agent`'s `try/except` around `agent.run(question)`: the
configured answer agent is the external `run`; a successful run returns
`response.content`, an exception is converted into the string
`"Error generating answer: " + str(e)` returned as the answer. -/
def graphrag_agent (run : String → Except String String)
    (question : String) : String :=
  match run question with
  | Except.ok content => content
  | Except.error e => "Error generating answer: " ++ e

/-- `sql_graphrag_agent`'s identical `try/except` around
`agent.run(question)`. -/
def sql_graphrag_agent (run : String → Except String String)
    (question : String) : String :=
  match run question with
  | Except.ok content => content
  | Except.error e => "Error generating answer: " ++ e

/-- C10: neither answer-generation function propagates an LLM exception:
when the run throws, each returns the string
"Error generating answer: " followed by the exception message as the
answer, and when the run succeeds, each returns the response content. -/
theorem claim10_agents_error_reporting
    (run runSql : String → Except String String) (question : String) :
    (∀ e, run question = Except.error e →
        graphrag_agent run question = "Error generating answer: " ++ e)
      ∧ (∀ c, run question = Except.ok c →
          graphrag_agent run question = c)
      ∧ (∀ e, runSql question = Except.error e →
          sql_graphrag_agent runSql question = "Error generating answer: " ++ e)
      ∧ (∀ c, runSql question = Except.ok c →
          sql_graphrag_agent runSql question = c) := by
  refine ⟨?_, ?_, ?_, ?_⟩
  · intro e h
    unfold graphrag_agent
    rw [h]
  · intro c h
    unfold graphrag_agent
    rw [h]
  · intro e h
    unfold sql_graphrag_agent
    rw [h]
  · intro c h
    unfold sql_graphrag_agent
    rw [h]

/-- Witness for C10 at a concrete always-throwing run. -/
theorem claim10_agents_error_reporting_witness :
    graphrag_agent (fun _ => Except.error "timeout") "What is Bitcoin?"
        = "Error generating answer: timeout"
      ∧ sql_graphrag_agent (fun _ => Except.error "timeout") "What is Bitcoin?"
        = "Error generating answer: timeout" := by
  have h := claim10_agents_error_reporting (fun _ => Except.error "timeout")
    (fun _ => Except.error "timeout") "What is Bitcoin?"
  exact ⟨h.1 "timeout" rfl, h.2.2.1 "timeout" rfl⟩

/-! ## The graph store writes of `load_pipeline` (`main.py` 10-127,
`services/neo4j_service.py` 91-155)

Each write method issues one Cypher statement; we embed its semantics on
an explicit graph state: `MERGE` on a key either updates the matching
node/edge in place (`SET`) or appends it; a plain `MATCH` that finds
nothing makes the remaining clauses do nothing. -/

namespace Neo4jService

/-- A `Document` node (`MERGE` key: `id`). -/
structure DocNode where
  id : String
  filename : String
  content : String
deriving Repr

/-- A `Chunk` node (`MERGE` key: `id`). -/
structure ChunkNode where
  id : String
  text : String
  index : Nat
  embedding : List Float
deriving Repr

/-- An `Entity` node (`MERGE` key: `name`). -/
structure EntityNode where
  name : String
  type : String
deriving Repr

/-- The persisted graph. -/
structure GraphState where
  documents : List DocNode
  chunks : List ChunkNode
  entities : List EntityNode
  has_chunk_edges : List (String × String)
  next_edges : List (String × String)
  extracted_from_edges : List (String × String)
  rel_edges : List RelEdge
deriving Repr

/-- The empty graph. -/
def emptyGraph : GraphState := ⟨[], [], [], [], [], [], []⟩

/-- `MERGE` for a keyless edge: add it only if absent. -/
def insertAbsent {α : Type} [DecidableEq α] (l : List α) (a : α) : List α :=
  if a ∈ l then l else l ++ [a]

/-- `create_document_node`: `MERGE (d:Document {id}) SET filename,
content`. -/
def create_document_node (s : GraphState) (doc_id filename content : String) :
    GraphState :=
  if s.documents.any (fun d => decide (d.id = doc_id)) then
    { s with documents := s.documents.map (fun d =>
        if d.id = doc_id then ⟨doc_id, filename, content⟩ else d) }
  else
    { s with documents := s.documents ++ [⟨doc_id, filename, content⟩] }

/-- `create_chunk_node`: `MERGE (c:Chunk {id}) SET text, index,
embedding`, then `MATCH (d:Document {id: doc_id}) MERGE
(d)-[:HAS_CHUNK]->(c)` (no edge when the document does not exist). -/
def create_chunk_node (s : GraphState) (chunk_id text : String)
    (chunk_index : Nat) (embedding : List Float) (doc_id : String) :
    GraphState :=
  let s1 : GraphState :=
    if s.chunks.any (fun c => decide (c.id = chunk_id)) then
      { s with chunks := s.chunks.map (fun c =>
          if c.id = chunk_id then ⟨chunk_id, text, chunk_index, embedding⟩
          else c) }
    else
      { s with chunks := s.chunks ++ [⟨chunk_id, text, chunk_index, embedding⟩] }
  if s1.documents.any (fun d => decide (d.id = doc_id)) then
    { s1 with has_chunk_edges :=
        insertAbsent s1.has_chunk_edges (doc_id, chunk_id) }
  else s1

/-- `create_chunk_relationships`: for each consecutive pair of chunk
ids, `MATCH` both chunks and `MERGE` a `NEXT` edge. -/
def create_chunk_relationships (s : GraphState) (chunk_ids : List String) :
    GraphState :=
  (List.range (chunk_ids.length - 1)).foldl (fun st i =>
    let c1 := chunk_ids.getD i ""
    let c2 := chunk_ids.getD (i + 1) ""
    if st.chunks.any (fun c => decide (c.id = c1))
        && st.chunks.any (fun c => decide (c.id = c2)) then
      { st with next_edges := insertAbsent st.next_edges (c1, c2) }
    else st) s

/-- `create_entity`: `MERGE (e:Entity {name}) SET type`, then `MATCH`
the chunk and `MERGE` an `EXTRACTED_FROM` edge. -/
def create_entity (s : GraphState)
    (entity_name entity_type chunk_id : String) : GraphState :=
  let s1 : GraphState :=
    if s.entities.any (fun e => decide (e.name = entity_name)) then
      { s with entities := s.entities.map (fun e =>
          if e.name = entity_name then ⟨entity_name, entity_type⟩ else e) }
    else
      { s with entities := s.entities ++ [⟨entity_name, entity_type⟩] }
  if s1.chunks.any (fun c => decide (c.id = chunk_id)) then
    { s1 with extracted_from_edges :=
        insertAbsent s1.extracted_from_edges (entity_name, chunk_id) }
  else s1

/-- The `MERGE` key of a typed entity relationship edge: the two
endpoint names and the normalized label. -/
def relEdgeKey (e : RelEdge) : String × String × String :=
  (e.from_name, e.to_name, e.label)

/-- `create_relationship` as a state write: `MATCH` both entities by
name (no write if either is missing), `MERGE` the edge keyed by
endpoints and normalized label, `SET r.llm_type` to the original
phrase. -/
def create_relationship (s : GraphState)
    (from_entity to_entity rel_type : String) : GraphState :=
  if s.entities.any (fun e => decide (e.name = from_entity))
      && s.entities.any (fun e => decide (e.name = to_entity)) then
    let edge := GraphRAG.create_relationship from_entity to_entity rel_type
    if s.rel_edges.any (fun x => decide (relEdgeKey x = relEdgeKey edge)) then
      { s with rel_edges := s.rel_edges.map (fun x =>
          if relEdgeKey x = relEdgeKey edge then edge else x) }
    else { s with rel_edges := s.rel_edges ++ [edge] }
  else s

/-- The entity-storing loop of `load_pipeline`: for each chunk's
extraction record, create its entities linked to that chunk's id. -/
def entityPhase (s : GraphState) (chunk_ids : List String)
    (ces : List ChunkExtraction) : GraphState :=
  ces.foldl (fun st ex =>
    ex.entities.foldl (fun st2 e =>
      create_entity st2 e.name e.type (chunk_ids.getD ex.chunk_index "")) st) s

/-- The storage step (step 5) of `load_pipeline`, with the per-run
generated UUIDs (`doc_id` and `chunk_ids`) as explicit inputs: document
node, chunk nodes with `HAS_CHUNK` edges (one per zipped
chunk/embedding pair), `NEXT` edges, entity nodes with provenance
edges, then merged relationships. -/
def load_pipeline_store (s : GraphState) (doc_id filename text : String)
    (chunks : List String) (chunk_embeddings : List (List Float))
    (chunk_ids : List String) (chunk_extractions : List ChunkExtraction)
    (relationships : List Rel) : GraphState :=
  let s1 := create_document_node s doc_id filename text
  let s2 := (List.range (min chunks.length chunk_embeddings.length)).foldl
    (fun st i =>
      create_chunk_node st (chunk_ids.getD i "") (chunks.getD i "") i
        (chunk_embeddings.getD i []) doc_id) s1
  let s3 := create_chunk_relationships s2 chunk_ids
  let s4 := entityPhase s3 chunk_ids chunk_extractions
  relationships.foldl (fun st r =>
    create_relationship st r.from_entity r.to_entity r.type) s4

/-- The `MERGE` keys of the entity store: the stored entity names. -/
def entityNames (s : GraphState) : List String :=
  s.entities.map EntityNode.name

lemma any_name_iff (l : List EntityNode) (n : String) :
    (l.any (fun e => decide (e.name = n)) = true)
      ↔ n ∈ l.map EntityNode.name := by
  rw [List.any_eq_true]
  constructor
  · rintro ⟨e, he, hp⟩
    rw [decide_eq_true_eq] at hp
    exact List.mem_map.mpr ⟨e, he, hp⟩
  · intro hm
    rcases List.mem_map.mp hm with ⟨e, he, hn⟩
    exact ⟨e, he, by rw [decide_eq_true_eq]; exact hn⟩

lemma any_doc_iff (l : List DocNode) (n : String) :
    (l.any (fun d => decide (d.id = n)) = true) ↔ n ∈ l.map DocNode.id := by
  rw [List.any_eq_true]
  constructor
  · rintro ⟨d, hd, hp⟩
    rw [decide_eq_true_eq] at hp
    exact List.mem_map.mpr ⟨d, hd, hp⟩
  · intro hm
    rcases List.mem_map.mp hm with ⟨d, hd, hn⟩
    exact ⟨d, hd, by rw [decide_eq_true_eq]; exact hn⟩

lemma entities_create_document_node (s : GraphState) (d f c : String) :
    (create_document_node s d f c).entities = s.entities := by
  unfold create_document_node
  split <;> rfl

lemma entities_create_chunk_node (s : GraphState) (cid t : String)
    (idx : Nat) (emb : List Float) (did : String) :
    (create_chunk_node s cid t idx emb did).entities = s.entities := by
  unfold create_chunk_node
  dsimp only
  split <;> split <;> rfl

lemma entities_create_chunk_relationships (s : GraphState)
    (cids : List String) :
    (create_chunk_relationships s cids).entities = s.entities := by
  unfold create_chunk_relationships
  generalize List.range (cids.length - 1) = is
  induction is generalizing s with
  | nil => rfl
  | cons i is ih =>
    rw [List.foldl_cons, ih]
    dsimp only
    split <;> rfl

lemma entities_create_relationship (s : GraphState) (f t ty : String) :
    (create_relationship s f t ty).entities = s.entities := by
  unfold create_relationship
  dsimp only
  split
  · split <;> rfl
  · rfl

lemma entities_rel_fold (rels : List Rel) :
    ∀ s : GraphState,
      (rels.foldl (fun st r =>
        create_relationship st r.from_entity r.to_entity r.type) s).entities
        = s.entities := by
  induction rels with
  | nil => intro s; rfl
  | cons r rels ih =>
    intro s
    rw [List.foldl_cons, ih, entities_create_relationship]

lemma entities_chunk_fold (cks : List String) (embs : List (List Float))
    (cids : List String) (did : String) :
    ∀ (is : List Nat) (s : GraphState),
      (is.foldl (fun st i =>
        create_chunk_node st (cids.getD i "") (cks.getD i "") i
          (embs.getD i []) did) s).entities = s.entities := by
  intro is
  induction is with
  | nil => intro s; rfl
  | cons i is ih =>
    intro s
    rw [List.foldl_cons, ih, entities_create_chunk_node]

lemma entities_create_entity (s : GraphState) (n ty cid : String) :
    (create_entity s n ty cid).entities
      = if s.entities.any (fun e => decide (e.name = n)) then
          s.entities.map (fun e => if e.name = n then ⟨n, ty⟩ else e)
        else s.entities ++ [⟨n, ty⟩] := by
  unfold create_entity
  dsimp only
  by_cases h : s.entities.any (fun e => decide (e.name = n)) = true
  · simp only [if_pos h]
    split <;> rfl
  · simp only [if_neg h]
    split <;> rfl

lemma documents_create_entity (s : GraphState) (n ty cid : String) :
    (create_entity s n ty cid).documents = s.documents := by
  unfold create_entity
  dsimp only
  split <;> split <;> rfl

lemma entityNames_create_entity (s : GraphState) (n ty cid : String) :
    entityNames (create_entity s n ty cid)
      = insertAbsent (entityNames s) n := by
  unfold entityNames insertAbsent
  rw [entities_create_entity]
  by_cases h : s.entities.any (fun e => decide (e.name = n)) = true
  · rw [if_pos h, if_pos ((any_name_iff _ _).mp h)]
    rw [List.map_map]
    apply List.map_congr_left
    intro e _
    by_cases he : e.name = n
    · simp [Function.comp, he]
    · simp [Function.comp, he]
  · have hnm : n ∉ s.entities.map EntityNode.name := fun hm =>
      h ((any_name_iff _ _).mpr hm)
    rw [if_neg h, if_neg hnm, List.map_append]
    rfl

lemma mem_insertAbsent_self {α : Type} [DecidableEq α] (l : List α) (a : α) :
    a ∈ insertAbsent l a := by
  unfold insertAbsent
  by_cases h : a ∈ l
  · rw [if_pos h]
    exact h
  · rw [if_neg h]
    exact List.mem_append_right _ (List.mem_singleton_self a)

lemma mem_insertAbsent_of_mem {α : Type} [DecidableEq α] {l : List α}
    {a : α} (b : α) (h : a ∈ l) : a ∈ insertAbsent l b := by
  unfold insertAbsent
  by_cases hb : b ∈ l
  · rw [if_pos hb]
    exact h
  · rw [if_neg hb]
    exact List.mem_append_left _ h

lemma foldl_insertAbsent_of_subset {α : Type} [DecidableEq α] :
    ∀ (ws l : List α), (∀ a ∈ ws, a ∈ l) → ws.foldl insertAbsent l = l
  | [], _, _ => rfl
  | w :: ws, l, h => by
    rw [List.foldl_cons]
    have hw : w ∈ l := h w (List.mem_cons_self _ _)
    have hl : insertAbsent l w = l := by
      unfold insertAbsent
      rw [if_pos hw]
    rw [hl]
    exact foldl_insertAbsent_of_subset ws l
      (fun a ha => h a (List.mem_cons_of_mem _ ha))

lemma mem_foldl_insertAbsent_base {α : Type} [DecidableEq α] :
    ∀ (ws l : List α) (a : α), a ∈ l → a ∈ ws.foldl insertAbsent l
  | [], _, _, ha => ha
  | w :: ws, l, a, ha => by
    rw [List.foldl_cons]
    exact mem_foldl_insertAbsent_base ws _ a (mem_insertAbsent_of_mem w ha)

lemma mem_foldl_insertAbsent_write {α : Type} [DecidableEq α] :
    ∀ (ws l : List α) (a : α), a ∈ ws → a ∈ ws.foldl insertAbsent l
  | [], _, a, ha => by simp at ha
  | w :: ws, l, a, ha => by
    rw [List.foldl_cons]
    rcases List.mem_cons.mp ha with rfl | ha
    · exact mem_foldl_insertAbsent_base ws _ a (mem_insertAbsent_self l a)
    · exact mem_foldl_insertAbsent_write ws _ a ha

lemma entityNames_entity_fold (cid : String) :
    ∀ (es : List Entity) (s : GraphState),
      entityNames (es.foldl (fun st2 e =>
        create_entity st2 e.name e.type cid) s)
        = (es.map Entity.name).foldl insertAbsent (entityNames s)
  | [], _ => rfl
  | e :: es, s => by
    rw [List.foldl_cons, entityNames_entity_fold cid es, List.map_cons,
      List.foldl_cons, entityNames_create_entity]

lemma entityNames_entityPhase (cids : List String) :
    ∀ (ces : List ChunkExtraction) (s : GraphState),
      entityNames (entityPhase s cids ces)
        = ((ces.flatMap (fun ex => ex.entities)).map Entity.name).foldl
            insertAbsent (entityNames s)
  | [], _ => rfl
  | ex :: ces, s => by
    unfold entityPhase
    rw [List.foldl_cons]
    have h := entityNames_entityPhase cids ces
      (ex.entities.foldl (fun st2 e =>
        create_entity st2 e.name e.type (cids.getD ex.chunk_index "")) s)
    unfold entityPhase at h
    rw [h, entityNames_entity_fold, List.flatMap_cons, List.map_append,
      List.foldl_append]

lemma documents_entity_fold (cid : String) :
    ∀ (es : List Entity) (s : GraphState),
      (es.foldl (fun st2 e =>
        create_entity st2 e.name e.type cid) s).documents = s.documents
  | [], _ => rfl
  | e :: es, s => by
    rw [List.foldl_cons, documents_entity_fold cid es, documents_create_entity]

lemma documents_entityPhase (cids : List String) :
    ∀ (ces : List ChunkExtraction) (s : GraphState),
      (entityPhase s cids ces).documents = s.documents
  | [], _ => rfl
  | ex :: ces, s => by
    unfold entityPhase
    rw [List.foldl_cons]
    have h := documents_entityPhase cids ces
      (ex.entities.foldl (fun st2 e =>
        create_entity st2 e.name e.type (cids.getD ex.chunk_index "")) s)
    unfold entityPhase at h
    rw [h, documents_entity_fold]

lemma documents_create_chunk_node (s : GraphState) (cid t : String)
    (idx : Nat) (emb : List Float) (did : String) :
    (create_chunk_node s cid t idx emb did).documents = s.documents := by
  unfold create_chunk_node
  dsimp only
  split <;> split <;> rfl

lemma documents_chunk_fold (cks : List String) (embs : List (List Float))
    (cids : List String) (did : String) :
    ∀ (is : List Nat) (s : GraphState),
      (is.foldl (fun st i =>
        create_chunk_node st (cids.getD i "") (cks.getD i "") i
          (embs.getD i []) did) s).documents = s.documents
  | [], _ => rfl
  | i :: is, s => by
    rw [List.foldl_cons, documents_chunk_fold cks embs cids did is,
      documents_create_chunk_node]

lemma documents_create_chunk_relationships (s : GraphState)
    (cids : List String) :
    (create_chunk_relationships s cids).documents = s.documents := by
  unfold create_chunk_relationships
  generalize List.range (cids.length - 1) = is
  induction is generalizing s with
  | nil => rfl
  | cons i is ih =>
    rw [List.foldl_cons, ih]
    dsimp only
    split <;> rfl

lemma documents_create_relationship (s : GraphState) (f t ty : String) :
    (create_relationship s f t ty).documents = s.documents := by
  unfold create_relationship
  dsimp only
  split
  · split <;> rfl
  · rfl

lemma documents_rel_fold (rels : List Rel) :
    ∀ s : GraphState,
      (rels.foldl (fun st r =>
        create_relationship st r.from_entity r.to_entity r.type) s).documents
        = s.documents := by
  induction rels with
  | nil => intro s; rfl
  | cons r rels ih =>
    intro s
    rw [List.foldl_cons, ih, documents_create_relationship]

lemma entityNames_rel_fold (rels : List Rel) (s : GraphState) :
    entityNames (rels.foldl (fun st r =>
      create_relationship st r.from_entity r.to_entity r.type) s)
      = entityNames s := by
  unfold entityNames
  rw [entities_rel_fold]

lemma entityNames_create_chunk_relationships (s : GraphState)
    (cids : List String) :
    entityNames (create_chunk_relationships s cids) = entityNames s := by
  unfold entityNames
  rw [entities_create_chunk_relationships]

lemma entityNames_chunk_fold (cks : List String) (embs : List (List Float))
    (cids : List String) (did : String) (is : List Nat) (s : GraphState) :
    entityNames (is.foldl (fun st i =>
      create_chunk_node st (cids.getD i "") (cks.getD i "") i
        (embs.getD i []) did) s) = entityNames s := by
  unfold entityNames
  rw [entities_chunk_fold]

lemma entityNames_create_document_node (s : GraphState) (d f c : String) :
    entityNames (create_document_node s d f c) = entityNames s := by
  unfold entityNames
  rw [entities_create_document_node]

lemma entityNames_load_pipeline_store (s : GraphState) (d f t : String)
    (cks : List String) (embs : List (List Float)) (cids : List String)
    (ces : List ChunkExtraction) (rels : List Rel) :
    entityNames (load_pipeline_store s d f t cks embs cids ces rels)
      = ((ces.flatMap (fun ex => ex.entities)).map Entity.name).foldl
          insertAbsent (entityNames s) := by
  unfold load_pipeline_store
  dsimp only
  rw [entityNames_rel_fold, entityNames_entityPhase,
    entityNames_create_chunk_relationships, entityNames_chunk_fold,
    entityNames_create_document_node]

lemma documents_load_pipeline_store (s : GraphState) (d f t : String)
    (cks : List String) (embs : List (List Float)) (cids : List String)
    (ces : List ChunkExtraction) (rels : List Rel) :
    (load_pipeline_store s d f t cks embs cids ces rels).documents
      = (create_document_node s d f t).documents := by
  unfold load_pipeline_store
  dsimp only
  rw [documents_rel_fold, documents_entityPhase,
    documents_create_chunk_relationships, documents_chunk_fold]

lemma documents_create_document_node_fresh (s : GraphState) {d : String}
    (f c : String) (h : d ∉ s.documents.map DocNode.id) :
    (create_document_node s d f c).documents
      = s.documents ++ [⟨d, f, c⟩] := by
  unfold create_document_node
  have hany : ¬ (s.documents.any (fun x => decide (x.id = d)) = true) :=
    fun ha => h ((any_doc_iff _ _).mp ha)
  rw [if_neg hany]

/-- C8 counterexample: running the storage step of `load_pipeline` twice
with identical input but the fresh UUIDs the code generates per run
(distinct document id and chunk ids) changes the Document and Chunk node
counts, so re-running is NOT idempotent for Document and Chunk nodes. -/
theorem claim8_counterexample :
    (load_pipeline_store (load_pipeline_store emptyGraph "d1" "f.pdf"
          "text" ["c"] [[]] ["ch1"]
          [⟨0, "c", [⟨"Bitcoin", "TECHNOLOGY"⟩], []⟩] [])
        "d2" "f.pdf" "text" ["c"] [[]] ["ch2"]
        [⟨0, "c", [⟨"Bitcoin", "TECHNOLOGY"⟩], []⟩] []).documents.length
      ≠ (load_pipeline_store emptyGraph "d1" "f.pdf" "text" ["c"] [[]]
          ["ch1"] [⟨0, "c", [⟨"Bitcoin", "TECHNOLOGY"⟩], []⟩]
          []).documents.length
    ∧ (load_pipeline_store (load_pipeline_store emptyGraph "d1" "f.pdf"
          "text" ["c"] [[]] ["ch1"]
          [⟨0, "c", [⟨"Bitcoin", "TECHNOLOGY"⟩], []⟩] [])
        "d2" "f.pdf" "text" ["c"] [[]] ["ch2"]
        [⟨0, "c", [⟨"Bitcoin", "TECHNOLOGY"⟩], []⟩] []).chunks.length
      ≠ (load_pipeline_store emptyGraph "d1" "f.pdf" "text" ["c"] [[]]
          ["ch1"] [⟨0, "c", [⟨"Bitcoin", "TECHNOLOGY"⟩], []⟩]
          []).chunks.length := by
  decide

/-- C8 amended: Entity writes are keyed by name identically across runs,
so re-running the ingestion storage with identical input creates no new
Entity node (the stored entity-name list is unchanged); but the Document
node is keyed by a per-run fresh UUID, so the second run adds exactly
one new Document node (and likewise duplicates Chunk nodes, as the
counterexample shows). -/
theorem claim8_rerun_amended (d1 d2 filename text : String)
    (chunks : List String) (embs : List (List Float))
    (cids1 cids2 : List String) (ces : List ChunkExtraction)
    (rels : List Rel)
    (hfresh : d2 ∉ (load_pipeline_store emptyGraph d1 filename text chunks
        embs cids1 ces rels).documents.map DocNode.id) :
    entityNames (load_pipeline_store (load_pipeline_store emptyGraph d1
          filename text chunks embs cids1 ces rels) d2 filename text chunks
          embs cids2 ces rels)
        = entityNames (load_pipeline_store emptyGraph d1 filename text
            chunks embs cids1 ces rels)
      ∧ (load_pipeline_store (load_pipeline_store emptyGraph d1 filename
            text chunks embs cids1 ces rels) d2 filename text chunks embs
            cids2 ces rels).documents.length
        = (load_pipeline_store emptyGraph d1 filename text chunks embs
            cids1 ces rels).documents.length + 1 := by
  constructor
  · rw [entityNames_load_pipeline_store]
    apply foldl_insertAbsent_of_subset
    intro a ha
    rw [entityNames_load_pipeline_store]
    exact mem_foldl_insertAbsent_write _ _ a ha
  · rw [documents_load_pipeline_store,
      documents_create_document_node_fresh _ _ _ hfresh, List.length_append]
    rfl

/-- Witness for the amended C8 at a concrete one-chunk ingestion run
with fresh per-run ids. -/
theorem claim8_rerun_amended_witness :
    entityNames (load_pipeline_store (load_pipeline_store emptyGraph "d1"
          "f.pdf" "text" ["c"] [[]] ["ch1"]
          [⟨0, "c", [⟨"Bitcoin", "TECHNOLOGY"⟩], []⟩] []) "d2" "f.pdf"
          "text" ["c"] [[]] ["ch2"]
          [⟨0, "c", [⟨"Bitcoin", "TECHNOLOGY"⟩], []⟩] [])
        = entityNames (load_pipeline_store emptyGraph "d1" "f.pdf" "text"
            ["c"] [[]] ["ch1"] [⟨0, "c", [⟨"Bitcoin", "TECHNOLOGY"⟩], []⟩]
            [])
      ∧ (load_pipeline_store (load_pipeline_store emptyGraph "d1" "f.pdf"
            "text" ["c"] [[]] ["ch1"]
            [⟨0, "c", [⟨"Bitcoin", "TECHNOLOGY"⟩], []⟩] []) "d2" "f.pdf"
            "text" ["c"] [[]] ["ch2"]
            [⟨0, "c", [⟨"Bitcoin", "TECHNOLOGY"⟩], []⟩] []).documents.length
        = (load_pipeline_store emptyGraph "d1" "f.pdf" "text" ["c"] [[]]
            ["ch1"] [⟨0, "c", [⟨"Bitcoin", "TECHNOLOGY"⟩], []⟩]
            []).documents.length + 1 :=
  claim8_rerun_amended "d1" "d2" "f.pdf" "text" ["c"] [[]] ["ch1"] ["ch2"]
    [⟨0, "c", [⟨"Bitcoin", "TECHNOLOGY"⟩], []⟩] [] (by decide)

end Neo4jService

end GraphRAG
